import Mathlib

/-!
Verification of the Chrome remote-debugger protocol client
(src/LiveDevelopment/Inspector/ChromeInspector.js) by shallow embedding.

JavaScript values that travel through the client are modelled by `JsValue`,
a JSON-like type extended with `undefined` so that an absent object field and an
explicitly undefined value are representable (reading a missing property in
JavaScript yields `undefined`).  Array values are not modelled; no routing
decision in the source inspects an array.

The module-level mutable state of the client (`_messageId`,
`_messageCallbacks`, `_port`, and the per-domain jQuery event listeners) is
modelled by `InspectorState`.  Continuations and event listeners are opaque
to the client, so they are represented by numeric identifiers; an invocation
of one of them is recorded as an `Effect` in an output trace rather than
executed.  A thrown JavaScript exception is recorded in the `threw` flag of
the routing result (state mutations that happened before the throw persist,
as they do in JavaScript).
-/

namespace ChromeInspector

/-- JSON-like values plus `undefined`, mirroring the JavaScript values the
client manipulates.  Reading a missing field yields `undefined`. -/
inductive JsValue where
  | undefined : JsValue
  | null : JsValue
  | bool : Bool → JsValue
  | num : Int → JsValue
  | str : String → JsValue
  | obj : List (String × JsValue) → JsValue

/-- JavaScript truthiness: `undefined`, `null`, `false`, `0` and the empty
string are falsy; objects are always truthy. -/
def truthy : JsValue → Bool
  | .undefined => false
  | .null => false
  | .bool b => b
  | .num n => n != 0
  | .str s => s != ""
  | .obj _ => true

/-- First binding of a key in a field list, `undefined` when absent
(JavaScript property read). -/
def lookupField : List (String × JsValue) → String → JsValue
  | [], _ => .undefined
  | (k, v) :: rest, key => if k = key then v else lookupField rest key

/-- Property read `value[key]`: fields of an object, `undefined` on any
non-object (reading a property of a primitive yields `undefined`;
property reads on `null`/`undefined` are only performed by the source
on values it has already found truthy or that are message objects). -/
def getField : JsValue → String → JsValue
  | .obj fs, key => lookupField fs key
  | _, _ => .undefined

/-- Property write on a field list: replaces the first binding of the key in
place, otherwise appends, matching JavaScript object key order. -/
def setFieldList : List (String × JsValue) → String → JsValue → List (String × JsValue)
  | [], key, v => [(key, v)]
  | (k, w) :: rest, key, v =>
      if k = key then (key, v) :: rest else (k, w) :: setFieldList rest key v

/-- Property write `value[key] = v` on an object; identity on non-objects
(the source only writes to objects, a write to a primitive throws and is
handled at the call site). -/
def setField : JsValue → String → JsValue → JsValue
  | .obj fs, key, v => .obj (setFieldList fs key v)
  | other, _, _ => other

/-- One parameter descriptor of a schema command: `{name, optional}`.
An absent `optional` field in the schema JSON is `false` here, since the
source tests `signature.optional === true`. -/
structure Param where
  name : String
  optional : Bool

/-- Module state of the inspector client.

* `messageId` models `_messageId`, the auto-incrementing id counter,
  initially 1;
* `messageCallbacks` models `_messageCallbacks`, the id-to-callback table
  (callbacks are opaque, kept as numeric identifiers);
* `port` models the truthiness of `_port` (whether a transport handle is
  open);
* `listeners` models the jQuery handlers attached to the per-domain export
  objects: triples of domain name, the event name the handler was attached
  with (which jQuery parses as a type plus optional dot-separated
  namespaces), and an opaque listener id. -/
structure InspectorState where
  messageId : Nat
  messageCallbacks : List (Nat × Nat)
  port : Bool
  listeners : List (String × String × Nat)

/-- The state at module load: `_messageId = 1`, empty callback table, no
port. -/
def initialState : InspectorState :=
  { messageId := 1, messageCallbacks := [], port := false, listeners := [] }

/-- Observable actions of the client, recorded as a trace. -/
inductive Effect where
  | message : JsValue → Effect
  | errorNotif : JsValue → Effect
  | callback : Nat → JsValue → Effect
  | listener : Nat → JsValue → Effect
  | disconnectNotif : Effect
  | connectNotif : Effect
  | sent : JsValue → Effect

/-- `delete _messageCallbacks[k]`. -/
def eraseKey (k : Nat) (t : List (Nat × Nat)) : List (Nat × Nat) :=
  t.filter (fun p => p.1 != k)

/-- Decimal digit accumulation over a character list; `none` as soon as a
non-digit occurs. -/
def parseDigits : List Char → Nat → Option Nat
  | [], acc => some acc
  | c :: cs, acc =>
      if c.isDigit then parseDigits cs (acc * 10 + (c.toNat - 48)) else none

/-- The natural number whose canonical decimal numeral is the given
string, when there is one.  These are exactly the strings JavaScript
produces as property keys for the natural numbers, so "1" denotes 1 while
"01", "-1", "" or "x" denote no natural-number key. -/
def canonicalNatKey (s : String) : Option Nat :=
  match parseDigits s.toList 0 with
  | some n => if Nat.repr n = s then some n else none
  | none => none

/-- The table key a message id denotes.  JavaScript coerces a property key
to a string, and the dispatcher stores callbacks under the decimal
numerals of the allocated ids.  Hence a non-negative integer id matches
its own value; a string id matches exactly when it is the canonical
decimal numeral of a natural number (so the id "1" finds the entry stored
under 1, while "01", "-1" or "x" find nothing); and an absent, null,
boolean or object id coerces to a key such as "undefined", "null", "true"
or "[object Object]" that the dispatcher never allocates. -/
def msgIdKey : JsValue → Option Nat
  | .num n => if 0 ≤ n then some n.toNat else none
  | .str s => canonicalNatKey s
  | _ => none

/-- Positional argument access `args[i]`: `undefined` past the end. -/
def argAt (args : List JsValue) (i : Nat) : JsValue :=
  (args.get? i).getD .undefined

/-- `_verifySignature(signature, value)`: always returns true; emits the
`console.assert` text "Missing argument: name" when the value is undefined
and the descriptor is not optional (source lines 87-92). -/
def jsVerifySignature (signature : Param) (value : JsValue) : Bool × List String :=
  match value with
  | .undefined =>
      (true, if signature.optional then [] else ["Missing argument: " ++ signature.name])
  | _ => (true, [])

/-- The `for (i in signature)` loop of `_send` (source lines 131-135):
walks the descriptors positionally against the argument list, assigning
`params[signature[i].name] = args[i]` whenever the verification returns
true (it always does), and collecting the assertion messages. -/
def processSignature : List Param → List JsValue → List (String × JsValue) →
    List (String × JsValue) × List String
  | [], _, acc => (acc, [])
  | p :: rest, args, acc =>
      let v := args.head?.getD .undefined
      let w := (jsVerifySignature p v).2
      let acc1 := if (jsVerifySignature p v).1 then setFieldList acc p.name v else acc
      let r := processSignature rest args.tail acc1
      (r.1, w ++ r.2)

/-- Result of `_send`: the updated state, the message handed to
`_port.postMessage` when one was sent, and the assertion messages. -/
structure SendResult where
  state : InspectorState
  envelope : Option JsValue
  warnings : List String

/-- `_send(method, signature, varargs)` (source lines 100-150).  The
callback (either the trailing function argument or the deferred-resolving
wrapper) is abstracted as an opaque identifier `cb`.  When `_port` is not
open the function returns immediately: no id is allocated, no table entry
is made, no message is posted and no signature check runs.  Otherwise it
allocates `id = _messageId++`, stores the callback, builds the params
object from the signature, and posts
`{cmd: "sendCommand", method, params, id}`. -/
def jsSend (st : InspectorState) (method : String) (signature : List Param)
    (args : List JsValue) (cb : Nat) : SendResult :=
  if st.port = false then
    { state := st, envelope := none, warnings := [] }
  else
    let id := st.messageId
    let pr := processSignature signature args []
    { state := { st with
        messageId := st.messageId + 1,
        messageCallbacks := (id, cb) :: st.messageCallbacks },
      envelope := some (.obj [("cmd", .str "sendCommand"), ("method", .str method),
        ("params", .obj pr.1), ("id", .num (id : Int))]),
      warnings := pr.2 }

/-- Split of a character list at every dot, keeping empty segments, the
list-level semantics of the JavaScript string split with separator ".". -/
def splitList : List Char → List (List Char)
  | [] => [[]]
  | c :: rest =>
      let r := splitList rest
      if c = '.' then [] :: r
      else (c :: r.headD []) :: r.tail

/-- `s.split(".")` of JavaScript: splits at every occurrence of the
separator (the separator is a plain string, not a pattern), keeping empty
segments; the result is never empty. -/
def splitDot (s : String) : List String :=
  (splitList s.toList).map (fun cs => String.mk cs)

/-- The jQuery event type of a registered event name: jQuery parses the
name as a type followed by dot-separated namespaces, the type being the
text before the first dot (so a handler attached for "B.C" has type "B"
with namespace "C"). -/
def jqType (s : String) : String := (splitDot s).headD ""

/-- Result of routing one inbound message: next state, trace of effects,
the (possibly mutated) message object, and whether a JavaScript exception
escaped. -/
structure RouteResult where
  state : InspectorState
  effects : List Effect
  response : JsValue
  threw : Bool

/-- The result normalization of `_onMessage` (source lines 192-197): when
the nested `result` field of an object result is falsy it is overwritten
with `{type: "undefined"}`. -/
def normalizeResult (fs : List (String × JsValue)) : JsValue :=
  if truthy (lookupField fs "result") then .obj fs
  else setField (.obj fs) "result" (.obj [("type", .str "undefined")])

/-- `_onMessage(response)` (source lines 186-210).

1. Always first triggers the generic "message" notification.
2. If `response.error` is truthy: triggers the "error" notification.
3. Else if `response.result` is truthy: when the result is an object and
   its nested `result` field is falsy it is overwritten with
   `{type: "undefined"}` (the id field is untouched by this write); then
   the callback stored under `response.id`, if any, is invoked with the
   (normalized) result and its entry deleted.  When the truthy result is a
   primitive, the normalizing write `response.result.result = ...` throws
   a TypeError (strict mode assignment to a property of a primitive).
4. Else the message is an event: `response.method.split(".")` is taken
   (throwing when `method` is not a string) and
   `$(exports[domain]).triggerHandler(segment1, response.params)` runs
   with domain = segment 0.  Segment 1 contains no separator, so the
   trigger is un-namespaced, and jQuery then fires every handler on the
   domain object whose registered event type — the text before the first
   dot of the name it was attached with — equals segment 1: a handler
   attached for "B.C" (type "B", namespace "C") fires on the trigger "B"
   just like one attached for "B".  A method without a separator yields an
   undefined event name, for which no listener can be registered, so
   nothing fires. -/
def jsOnMessage (st : InspectorState) (response : JsValue) : RouteResult :=
  let base := [Effect.message response]
  if truthy (getField response "error") then
    { state := st, effects := base ++ [.errorNotif (getField response "error")],
      response := response, threw := false }
  else if truthy (getField response "result") then
    match getField response "result" with
    | .obj fs =>
        let res := normalizeResult fs
        let response1 := setField response "result" res
        match msgIdKey (getField response "id") with
        | some k =>
            match st.messageCallbacks.lookup k with
            | some cb =>
                { state := { st with messageCallbacks := eraseKey k st.messageCallbacks },
                  effects := base ++ [.callback cb res],
                  response := response1, threw := false }
            | none =>
                { state := st, effects := base, response := response1, threw := false }
        | none =>
            { state := st, effects := base, response := response1, threw := false }
    | _ =>
        { state := st, effects := base, response := response, threw := true }
  else
    match getField response "method" with
    | .str m =>
        let parts := splitDot m
        match parts.get? 1 with
        | some ev =>
            let dom := parts.headD ""
            let fired := st.listeners.filter (fun l => decide (l.1 = dom ∧ jqType l.2.1 = ev))
            { state := st,
              effects := base ++ fired.map (fun l => .listener l.2.2 (getField response "params")),
              response := response, threw := false }
        | none =>
            { state := st, effects := base, response := response, threw := false }
    | _ =>
        { state := st, effects := base, response := response, threw := true }

/-- `_onDisconnect()` (source lines 153-157): trigger the "disconnect"
notification, then clear `_port`.  `_messageCallbacks` is not touched. -/
def jsOnDisconnect (st : InspectorState) : InspectorState × List Effect :=
  ({ st with port := false }, [Effect.disconnectNotif])

/-- `disconnect()` (source lines 254-262): closes and clears the port if
one is open; the callback table is not touched. -/
def jsDisconnect (st : InspectorState) : InspectorState :=
  { st with port := false }

/-- The success continuation of `connect()` (source lines 268-285): after
the internal `disconnect()`, a new port is opened and `_onConnect` fires
the "connect" notification.  Neither `_messageId` nor `_messageCallbacks`
is touched. -/
def jsConnectSuccess (st : InspectorState) : InspectorState × List Effect :=
  ({ st with port := true }, [Effect.connectNotif])

/-- One externally observable operation on the client. -/
inductive Op where
  | send : String → List Param → List JsValue → Nat → Op
  | recv : JsValue → Op
  | disconnectOp : Op
  | connectOk : Op
  | connectFail : JsValue → Op
  | portClosed : Op

/-- Step of the client under one operation, with its effect trace.
`send` posts the envelope when one is produced; `recv` routes an inbound
message; `connectOk` is a completed `connect()` (internal disconnect, then
port open and "connect" notification); `connectFail` is a failed
`connect()` (internal disconnect, then the "error" notification);
`portClosed` is a spontaneous remote closure delivered to
`_onDisconnect`. -/
def stepOp (st : InspectorState) : Op → InspectorState × List Effect
  | .send method signature args cb =>
      let r := jsSend st method signature args cb
      (r.state, match r.envelope with
        | some e => [Effect.sent e]
        | none => [])
  | .recv response =>
      let r := jsOnMessage st response
      (r.state, r.effects)
  | .disconnectOp => (jsDisconnect st, [])
  | .connectOk => jsConnectSuccess (jsDisconnect st)
  | .connectFail err => (jsDisconnect st, [Effect.errorNotif err])
  | .portClosed => jsOnDisconnect st

/-- Run of a list of operations from a state, accumulating the trace. -/
def runOps : InspectorState → List Op → InspectorState × List Effect
  | st, [] => (st, [])
  | st, op :: ops =>
      let r := stepOp st op
      let rest := runOps r.1 ops
      (rest.1, r.2 ++ rest.2)

/-- Correlation ids carried by the envelopes posted in a trace. -/
def sentIds (effects : List Effect) : List Nat :=
  effects.filterMap (fun e =>
    match e with
    | .sent env => msgIdKey (getField env "id")
    | _ => none)

/-- Top level of the JSON serialization that the Chrome extension message
channel applies to a posted object: object properties whose value is
`undefined` are omitted from the wire form.  Applied to the params object
of an envelope. -/
def dropUndefFields (fs : List (String × JsValue)) : List (String × JsValue) :=
  fs.filter (fun p =>
    match p.2 with
    | .undefined => false
    | _ => true)

/-- Whether a field list binds a key at all (with any value, including an
undefined one). -/
def hasKey (fs : List (String × JsValue)) (k : String) : Bool :=
  fs.any (fun p => p.1 == k)

/-- A freshly connected client: the initial state after a successful
`connect()`. -/
def connectedInit : InspectorState := { initialState with port := true }

/-- The signature of the schema command `Page.navigate` with its one
non-optional parameter `url`. -/
def navSignature : List Param := [{ name := "url", optional := false }]

/-- Positional alignment of a signature with an argument list: the params
object that the `_send` loop produces when no two parameter descriptors
share a name (each descriptor paired with the argument at its index). -/
def alignParams : List Param → List JsValue → List (String × JsValue)
  | [], _ => []
  | p :: rest, args => (p.name, args.head?.getD .undefined) :: alignParams rest args.tail

/-- Correlation-table invariant: every id stored as a key of
`_messageCallbacks` is strictly below the current value of `_messageId`. -/
def tableInv (st : InspectorState) : Prop :=
  ∀ q ∈ st.messageCallbacks, q.1 < st.messageId

/-- State with one pending call: connected, id 1 mapped to continuation 5. -/
def pendingOneState : InspectorState :=
  { initialState with port := true, messageCallbacks := [(1, 5)] }

/-- Inbound message whose `error` field is absent and whose `result` field
is present but falsy. -/
def falsyResultMsg : JsValue := .obj [("id", .num 1), ("result", .num 0)]

/-- Message with a truthy but primitive `result` field. -/
def primitiveResultMsg : JsValue := .obj [("result", .num 5)]

/-- State with one listener (id 7) registered for the pair (A, B.C) and
one listener (id 9) registered for (A, B). -/
def twoListenerState : InspectorState :=
  { initialState with listeners := [("A", "B.C", 7), ("A", "B", 9)] }

/-- Event message whose method contains two separators. -/
def dottedEventMsg : JsValue := .obj [("method", .str "A.B.C"), ("params", .num 42)]

/-! ## Helper lemmas -/

/-- Objects are truthy. -/
theorem truthy_obj (fs : List (String × JsValue)) : truthy (.obj fs) = true := rfl

/-- Argument access at index zero is the head access of the `_send` loop. -/
theorem argAt_zero (args : List JsValue) : argAt args 0 = args.head?.getD .undefined := by
  cases args <;> rfl

/-- Argument access commutes with dropping the head. -/
theorem argAt_tail (args : List JsValue) (n : Nat) :
    argAt args.tail n = argAt args (n + 1) := by
  cases args <;> rfl

/-- The verification of `_verifySignature` always succeeds. -/
theorem jsVerifySignature_fst (p : Param) (v : JsValue) :
    (jsVerifySignature p v).1 = true := by
  cases v <;> rfl

/-- A non-optional descriptor aligned with an absent argument contributes
its assertion message to the output of the signature loop. -/
theorem warning_of_missing_required (p : Param) (hopt : p.optional = false) :
    ∀ (pre post : List Param) (args : List JsValue) (acc : List (String × JsValue)),
      argAt args pre.length = .undefined →
      ("Missing argument: " ++ p.name) ∈ (processSignature (pre ++ p :: post) args acc).2 := by
  intro pre
  induction pre with
  | nil =>
      intro post args acc habs
      have h0 : args.head?.getD .undefined = .undefined := by rw [← argAt_zero]; exact habs
      simp [List.nil_append, processSignature, h0, jsVerifySignature, hopt]
  | cons q pre ih =>
      intro post args acc habs
      simp only [List.cons_append, processSignature]
      apply List.mem_append_right
      apply ih post args.tail
      rw [argAt_tail]
      exact habs

/-- Key membership distributes over append. -/
theorem hasKey_append (a b : List (String × JsValue)) (k : String) :
    hasKey (a ++ b) k = (hasKey a k || hasKey b k) := by
  simp [hasKey]

/-- Writing a key that is not yet bound appends the binding. -/
theorem setFieldList_of_not_hasKey (k : String) (v : JsValue) :
    ∀ (acc : List (String × JsValue)), hasKey acc k = false →
      setFieldList acc k v = acc ++ [(k, v)] := by
  intro acc
  induction acc with
  | nil => intro _; rfl
  | cons q rest ih =>
      intro hk
      obtain ⟨a, b⟩ := q
      simp only [hasKey, List.any_cons, Bool.or_eq_false_iff] at hk
      obtain ⟨h1, h2⟩ := hk
      simp only [setFieldList]
      rw [if_neg, ih h2]
      · simp
      · intro hak
        rw [hak] at h1
        simp at h1

/-- With pairwise distinct parameter names that are all fresh for the
accumulator, the `_send` loop produces the positional alignment appended
to the accumulator. -/
theorem processSignature_params (sig : List Param) :
    ∀ (args : List JsValue) (acc : List (String × JsValue)),
      (sig.map Param.name).Nodup →
      (∀ q ∈ sig, hasKey acc q.name = false) →
      (processSignature sig args acc).1 = acc ++ alignParams sig args := by
  induction sig with
  | nil => intro args acc _ _; simp [processSignature, alignParams]
  | cons p rest ih =>
      intro args acc hnodup hdisj
      have hfst := jsVerifySignature_fst p (args.head?.getD .undefined)
      simp only [processSignature, alignParams, hfst, if_true]
      have haccp : hasKey acc p.name = false := hdisj p (List.mem_cons_self p rest)
      rw [setFieldList_of_not_hasKey p.name _ acc haccp]
      have hnodup' : (rest.map Param.name).Nodup := by
        simp only [List.map_cons, List.nodup_cons] at hnodup
        exact hnodup.2
      have hpnotin : p.name ∉ rest.map Param.name := by
        simp only [List.map_cons, List.nodup_cons] at hnodup
        exact hnodup.1
      have hdisj' : ∀ q ∈ rest,
          hasKey (acc ++ [(p.name, args.head?.getD .undefined)]) q.name = false := by
        intro q hq
        rw [hasKey_append, Bool.or_eq_false_iff]
        refine ⟨hdisj q (List.mem_cons_of_mem p hq), ?_⟩
        simp only [hasKey, List.any_cons, List.any_nil, Bool.or_false]
        rw [beq_eq_false_iff_ne]
        intro he
        exact hpnotin (he ▸ List.mem_map_of_mem Param.name hq)
      rw [ih args.tail _ hnodup' hdisj', List.append_assoc]
      rfl

/-- Every entry of the positional alignment comes from some index of the
signature, paired with the argument at that index. -/
theorem alignParams_mem (sig : List Param) :
    ∀ (args : List JsValue) (e : String × JsValue), e ∈ alignParams sig args →
      ∃ j p, sig.get? j = some p ∧ e = (p.name, argAt args j) := by
  induction sig with
  | nil => intro args e he; simp [alignParams] at he
  | cons p rest ih =>
      intro args e he
      simp only [alignParams, List.mem_cons] at he
      rcases he with rfl | he
      · exact ⟨0, p, rfl, by rw [argAt_zero]⟩
      · obtain ⟨j, q, hj, hee⟩ := ih args.tail e he
        exact ⟨j + 1, q, hj, by rw [hee, argAt_tail]⟩

/-- A key bound only to undefined values disappears from the wire form. -/
theorem hasKey_dropUndefFields_none (k : String) :
    ∀ (fs : List (String × JsValue)),
      (∀ e ∈ fs, e.1 = k → e.2 = JsValue.undefined) →
      hasKey (dropUndefFields fs) k = false := by
  intro fs
  induction fs with
  | nil => intro _; rfl
  | cons e rest ih =>
      intro hall
      obtain ⟨a, b⟩ := e
      by_cases hb : b = JsValue.undefined
      · subst hb
        have hdrop : dropUndefFields ((a, JsValue.undefined) :: rest) = dropUndefFields rest := by
          simp [dropUndefFields]
        rw [hdrop]
        exact ih (fun e he hk => hall e (List.mem_cons_of_mem _ he) hk)
      · have hak : ¬ a = k := by
          intro hak
          exact hb (hall (a, b) (List.mem_cons_self _ _) hak)
        have hkeep : dropUndefFields ((a, b) :: rest) = (a, b) :: dropUndefFields rest := by
          simp only [dropUndefFields, List.filter_cons]
          cases b <;> simp_all
        rw [hkeep]
        simp only [hasKey, List.any_cons, Bool.or_eq_false_iff]
        refine ⟨by rw [beq_eq_false_iff_ne]; exact hak, ?_⟩
        exact ih (fun e he hk => hall e (List.mem_cons_of_mem _ he) hk)

/-- A numeric-string id coerces to the same property key as the number:
the response `{id: "1", result: {}}` resolves the pending call stored
under 1, invoking its continuation with the normalized result and erasing
the entry, exactly as the source does. -/
theorem string_id_resolves_pending :
    (jsOnMessage pendingOneState
      (.obj [("id", .str "1"), ("result", .obj [])])).state.messageCallbacks = [] ∧
    (jsOnMessage pendingOneState
      (.obj [("id", .str "1"), ("result", .obj [])])).effects =
      [Effect.message (.obj [("id", .str "1"), ("result", .obj [])]),
       Effect.callback 5 (.obj [("result", .obj [("type", .str "undefined")])])] :=
  ⟨rfl, rfl⟩

/-- Routing an inbound message never changes the id counter. -/
theorem jsOnMessage_state_messageId (st : InspectorState) (r : JsValue) :
    (jsOnMessage st r).state.messageId = st.messageId := by
  unfold jsOnMessage
  dsimp only
  split
  · rfl
  · split
    · split
      · split
        · split <;> rfl
        · rfl
      · rfl
    · split
      · split <;> rfl
      · rfl

/-- Routing an inbound message only ever removes correlation entries. -/
theorem jsOnMessage_callbacks_sub (st : InspectorState) (r : JsValue) :
    ∀ q ∈ (jsOnMessage st r).state.messageCallbacks, q ∈ st.messageCallbacks := by
  intro q hq
  unfold jsOnMessage at hq
  dsimp only at hq
  split at hq
  · exact hq
  · split at hq
    · split at hq
      · split at hq
        · split at hq
          · simp only [eraseKey, List.mem_filter] at hq
            exact hq.1
          · exact hq
        · exact hq
      · exact hq
    · split at hq
      · split at hq <;> exact hq
      · exact hq

/-- Extraction of sent ids distributes over trace concatenation. -/
theorem sentIds_append (a b : List Effect) :
    sentIds (a ++ b) = sentIds a ++ sentIds b :=
  List.filterMap_append a b _

/-- Routing an inbound message posts no envelope. -/
theorem jsOnMessage_sentIds (st : InspectorState) (r : JsValue) :
    sentIds (jsOnMessage st r).effects = [] := by
  unfold jsOnMessage
  dsimp only
  split
  · rfl
  · split
    · split
      · split
        · split <;> rfl
        · rfl
      · rfl
    · split
      · split
        · simp [sentIds, List.filterMap_map]
        · rfl
      · rfl

/-- Table keys extracted from a natural-number id round-trip. -/
theorem msgIdKey_natCast (n : Nat) : msgIdKey (.num (n : Int)) = some n := by
  simp [msgIdKey]

/-- The id field of an outbound envelope reads back its id. -/
theorem getField_envelope_id (method : String) (ps : List (String × JsValue)) (n : Int) :
    getField (.obj [("cmd", .str "sendCommand"), ("method", .str method),
      ("params", .obj ps), ("id", .num n)]) "id" = .num n := rfl

/-- Master run lemma: from any state, the correlation ids handed out along
any operation sequence form the consecutive block starting at the current
counter, and the counter advances by exactly their number. -/
theorem runOps_ids (ops : List Op) : ∀ st : InspectorState,
    ∃ n, sentIds (runOps st ops).2 = List.range' st.messageId n ∧
      (runOps st ops).1.messageId = st.messageId + n := by
  induction ops with
  | nil => intro st; exact ⟨0, rfl, rfl⟩
  | cons op ops ih =>
      intro st
      cases op with
      | send method signature args cb =>
          by_cases hp : st.port = false
          · obtain ⟨n, h1, h2⟩ := ih st
            refine ⟨n, ?_, ?_⟩ <;> simp [runOps, stepOp, jsSend, hp, h1, h2]
          · obtain ⟨n, h1, h2⟩ := ih
              { st with
                messageId := st.messageId + 1
                messageCallbacks := (st.messageId, cb) :: st.messageCallbacks }
            refine ⟨n + 1, ?_, ?_⟩
            · show sentIds ((stepOp st (Op.send method signature args cb)).2 ++ _) = _
              rw [sentIds_append]
              simp only [stepOp, jsSend, if_neg hp]
              show sentIds [Effect.sent _] ++ _ = _
              have hone : sentIds [Effect.sent (.obj [("cmd", .str "sendCommand"),
                  ("method", .str method),
                  ("params", .obj (processSignature signature args []).1),
                  ("id", .num (st.messageId : Int))])] = [st.messageId] := by
                simp [sentIds, List.filterMap, getField_envelope_id, msgIdKey_natCast]
              rw [hone]
              rw [h1]
              rfl
            · simp only [runOps, stepOp, jsSend, if_neg hp]
              rw [h2]
              dsimp only
              omega
      | recv resp =>
          obtain ⟨n, h1, h2⟩ := ih (jsOnMessage st resp).state
          refine ⟨n, ?_, ?_⟩
          · show sentIds ((jsOnMessage st resp).effects ++
                (runOps (jsOnMessage st resp).state ops).2) = List.range' st.messageId n
            rw [sentIds_append, jsOnMessage_sentIds, List.nil_append, h1,
              jsOnMessage_state_messageId]
          · show (runOps (jsOnMessage st resp).state ops).1.messageId = st.messageId + n
            rw [h2, jsOnMessage_state_messageId]
      | disconnectOp =>
          obtain ⟨n, h1, h2⟩ := ih (jsDisconnect st)
          exact ⟨n, h1, h2⟩
      | connectOk =>
          obtain ⟨n, h1, h2⟩ := ih { jsDisconnect st with port := true }
          refine ⟨n, ?_, ?_⟩
          · show sentIds ([Effect.connectNotif] ++
                (runOps { jsDisconnect st with port := true } ops).2) =
              List.range' st.messageId n
            rw [sentIds_append, h1]
            rfl
          · show (runOps { jsDisconnect st with port := true } ops).1.messageId =
              st.messageId + n
            rw [h2]
            rfl
      | connectFail err =>
          obtain ⟨n, h1, h2⟩ := ih (jsDisconnect st)
          refine ⟨n, ?_, ?_⟩
          · show sentIds ([Effect.errorNotif err] ++ (runOps (jsDisconnect st) ops).2) =
              List.range' st.messageId n
            rw [sentIds_append, h1]
            rfl
          · show (runOps (jsDisconnect st) ops).1.messageId = st.messageId + n
            rw [h2]
            rfl
      | portClosed =>
          obtain ⟨n, h1, h2⟩ := ih { st with port := false }
          refine ⟨n, ?_, ?_⟩
          · show sentIds ([Effect.disconnectNotif] ++
                (runOps { st with port := false } ops).2) = List.range' st.messageId n
            rw [sentIds_append, h1]
            rfl
          · show (runOps { st with port := false } ops).1.messageId = st.messageId + n
            rw [h2]

/-! ## Claim theorems -/

/-- Claim C3: a command invocation while no transport handle is open is a
silent no-op: the state (id counter and correlation table included) is
returned unchanged, no envelope is produced, and no assertion message is
emitted.  The model is a total function, so nothing is thrown either: the
source returns before touching any state. -/
theorem send_disconnected_noop (st : InspectorState) (h : st.port = false)
    (method : String) (signature : List Param) (args : List JsValue) (cb : Nat) :
    jsSend st method signature args cb =
      { state := st, envelope := none, warnings := [] } := by
  simp [jsSend, h]

/-- Witness for C3 at a concrete input: the very first send of the process,
before any connect. -/
theorem send_disconnected_noop_witness :
    jsSend initialState "Page.navigate" navSignature [JsValue.str "http://example.com"] 0 =
      { state := initialState, envelope := none, warnings := [] } :=
  send_disconnected_noop initialState rfl "Page.navigate" navSignature
    [JsValue.str "http://example.com"] 0

/-- Claim C5 counterexample: the first `Page.navigate` envelope does exist,
but it has no field named `verb` at all (reading `verb` on it yields
undefined); the command-kind field of the source is named `cmd`
(source line 139).  This refutes the claim that the envelope is a
four-field object whose command-kind field is named `verb`. -/
theorem envelope_verb_counterexample :
    (jsSend connectedInit "Page.navigate" navSignature
      [JsValue.str "http://example.com"] 0).envelope.isSome = true ∧
    getField ((jsSend connectedInit "Page.navigate" navSignature
      [JsValue.str "http://example.com"] 0).envelope.getD .undefined) "verb" = .undefined :=
  ⟨rfl, rfl⟩

/-- Claim C5 as amended: the first command sent after initialization while
connected, `Page.navigate("http://example.com", cb)`, hands the transport
exactly the four-field object
`{cmd: "sendCommand", method: "Page.navigate",
params: {url: "http://example.com"}, id: 1}`: the command-kind field is
named `cmd` (not `verb`) and holds "sendCommand". -/
theorem first_envelope_fields :
    (jsSend connectedInit "Page.navigate" navSignature
      [JsValue.str "http://example.com"] 0).envelope =
      some (.obj [("cmd", .str "sendCommand"), ("method", .str "Page.navigate"),
        ("params", .obj [("url", .str "http://example.com")]), ("id", .num 1)]) :=
  rfl

/-- Claim C8: a spontaneous channel closure (remote initiated disconnect,
delivered to `_onDisconnect`) publishes exactly the disconnect
notification and clears the transport handle; the correlation table is
returned unchanged, entry for entry with the same continuation, and the
effect trace contains no callback invocation or rejection. -/
theorem spontaneous_close_keeps_pending (st : InspectorState) :
    (jsOnDisconnect st).1.messageCallbacks = st.messageCallbacks ∧
    (jsOnDisconnect st).1.port = false ∧
    (jsOnDisconnect st).2 = [Effect.disconnectNotif] :=
  ⟨rfl, rfl, rfl⟩

/-- Claim C2 counterexample: for the message `{id: 1, result: 0}` the
`result` field is present and `error` is absent, and a pending call for
id 1 exists, so the claim predicts that continuation 5 is invoked and the
entry is removed.  In fact the source tests truthiness, not presence:
`response.result` is falsy, the message falls through to the event branch,
`response.method.split` throws a TypeError, no continuation fires, and the
correlation table still holds the entry. -/
theorem response_present_falsy_counterexample :
    (jsOnMessage pendingOneState falsyResultMsg).state.messageCallbacks = [(1, 5)] ∧
    (jsOnMessage pendingOneState falsyResultMsg).effects =
      [Effect.message falsyResultMsg] ∧
    (jsOnMessage pendingOneState falsyResultMsg).threw = true :=
  ⟨rfl, rfl, rfl⟩

/-- Claim C10 counterexample: for the message `{result: 5}` the `result`
field is truthy and its nested `result` is absent, so the claim predicts
the router sets `result.result` to `{type: "undefined"}` and then performs
the correlation lookup.  In fact the normalizing write
`response.result.result = ...` assigns a property of the primitive 5,
which in strict mode ("use strict", source line 65) throws a TypeError:
the message is not mutated and the lookup is never reached. -/
theorem normalization_primitive_counterexample :
    (jsOnMessage initialState primitiveResultMsg).threw = true ∧
    (jsOnMessage initialState primitiveResultMsg).response = primitiveResultMsg ∧
    (jsOnMessage initialState primitiveResultMsg).effects =
      [Effect.message primitiveResultMsg] :=
  ⟨rfl, rfl, rfl⟩

/-- Claim C4 counterexample: for the method `"A.B.C"` the claim reads the
first-separator split — domain `A`, event name `B.C` — and asserts that
exactly the listeners registered for the pair (A, B.C) are invoked, so
listener 9, registered for the different pair (A, B), must not fire.  In
fact the source splits on every dot and triggers with type `B` (source
lines 205-208), and the un-namespaced jQuery trigger fires both the
handler attached for "B" and the one attached for "B.C" (type "B" with
namespace "C"): listener 9 is invoked as well. -/
theorem event_split_counterexample :
    Effect.listener 9 (.num 42) ∈ (jsOnMessage twoListenerState dottedEventMsg).effects ∧
    (jsOnMessage twoListenerState dottedEventMsg).effects =
      [Effect.message dottedEventMsg, Effect.listener 7 (.num 42),
       Effect.listener 9 (.num 42)] := by
  have h : (jsOnMessage twoListenerState dottedEventMsg).effects =
      [Effect.message dottedEventMsg, Effect.listener 7 (.num 42),
       Effect.listener 9 (.num 42)] := rfl
  refine ⟨?_, h⟩
  rw [h]
  simp

/-- Claim C1: over every operation sequence of the process (sends,
message deliveries, disconnects, reconnects, spontaneous closures), the
correlation ids assigned by the dispatcher are strictly increasing and
pairwise distinct, the first id ever assigned is 1, and monotonicity is
kept across an intervening disconnect/reconnect because the counter is
never reset. -/
theorem correlation_ids_strictly_increasing (ops : List Op) :
    List.Chain' (· < ·) (sentIds (runOps initialState ops).2) ∧
    (sentIds (runOps initialState ops).2).Nodup ∧
    ∀ x ∈ (sentIds (runOps initialState ops).2).head?, x = 1 := by
  obtain ⟨n, hids, -⟩ := runOps_ids ops initialState
  have hinit : initialState.messageId = 1 := rfl
  rw [hinit] at hids
  rw [hids]
  refine ⟨(List.pairwise_lt_range' _ n).chain', List.nodup_range' _ n, ?_⟩
  cases n with
  | zero => simp
  | succ m =>
      intro x hx
      simp [List.range'] at hx
      omega

/-- Claim C2 as amended: for every inbound message whose `error` field is
falsy and whose `result` field is an object (hence truthy; presence alone
is not enough, and a truthy primitive result throws), the router treats
`message.id` as a correlation key; when a pending call exists its
continuation is invoked with the (normalized) result payload and exactly
that entry is erased, and when none exists nothing fires, nothing is
thrown, and the state is fully unchanged. -/
theorem response_routing_truthy_result (st : InspectorState) (msg : JsValue)
    (fs : List (String × JsValue))
    (herr : truthy (getField msg "error") = false)
    (hres : getField msg "result" = .obj fs) :
    (jsOnMessage st msg).threw = false ∧
    ((∃ k cb, msgIdKey (getField msg "id") = some k ∧
        List.lookup k st.messageCallbacks = some cb ∧
        (jsOnMessage st msg).effects =
          [Effect.message msg, Effect.callback cb (normalizeResult fs)] ∧
        (jsOnMessage st msg).state.messageCallbacks = eraseKey k st.messageCallbacks ∧
        (jsOnMessage st msg).state.messageId = st.messageId ∧
        (jsOnMessage st msg).state.port = st.port) ∨
      ((msgIdKey (getField msg "id")).bind
          (fun k => List.lookup k st.messageCallbacks) = none ∧
        (jsOnMessage st msg).effects = [Effect.message msg] ∧
        (jsOnMessage st msg).state = st)) := by
  simp only [jsOnMessage, herr, hres, truthy_obj, Bool.false_eq_true, if_false, if_true]
  rcases hk : msgIdKey (getField msg "id") with _ | k
  · refine ⟨by simp, Or.inr ?_⟩
    simp [hk]
  · rcases hcb : List.lookup k st.messageCallbacks with _ | cb
    · refine ⟨by simp [hk, hcb], Or.inr ?_⟩
      simp [hk, hcb]
    · refine ⟨by simp [hk, hcb], Or.inl ⟨k, cb, rfl, hcb, ?_, ?_, ?_, ?_⟩⟩ <;>
        simp [hk, hcb]

/-- Witness for C2 as amended: the response `{id: "1", result: {}}` with a
numeric-string id, against the state holding pending call (1, 5), routes
without throwing (the id coerces to the key of the stored entry). -/
theorem response_routing_truthy_result_witness :
    (jsOnMessage pendingOneState (.obj [("id", .str "1"), ("result", .obj [])])).threw = false :=
  (response_routing_truthy_result pendingOneState
    (.obj [("id", .str "1"), ("result", .obj [])]) [] rfl rfl).1

/-- Claim C4 as amended: for every inbound message with falsy `error` and
`result` fields and a string method that contains a separator, the method
is split at every separator, the domain is segment 0 and the trigger type
is segment 1, and the listeners invoked — each receiving `message.params`
— are exactly those registered on that domain whose jQuery event type
(the text before the first separator of the name they were attached with)
equals segment 1: a registration "B.C" (type "B", namespace "C") fires on
the un-namespaced trigger "B" just like a registration "B".  Nothing is
thrown and the state is unchanged. -/
theorem event_routing_exact_listeners (st : InspectorState) (msg : JsValue) (m : String)
    (herr : truthy (getField msg "error") = false)
    (hres : truthy (getField msg "result") = false)
    (hm : getField msg "method" = .str m)
    (ev : String) (hev : (splitDot m).get? 1 = some ev) :
    (jsOnMessage st msg).threw = false ∧
    (jsOnMessage st msg).state = st ∧
    ∀ lid arg, Effect.listener lid arg ∈ (jsOnMessage st msg).effects ↔
      (∃ e, ((splitDot m).headD "", e, lid) ∈ st.listeners ∧ jqType e = ev ∧
        arg = getField msg "params") := by
  simp only [jsOnMessage, herr, hres, hm, Bool.false_eq_true, if_false, hev]
  refine ⟨trivial, trivial, ?_⟩
  intro lid arg
  simp only [List.cons_append, List.nil_append, List.mem_cons, List.mem_map, List.mem_filter]
  constructor
  · rintro (h | ⟨⟨d, e, i⟩, ⟨hl, hpred⟩, heq⟩)
    · cases h
    · simp only [decide_eq_true_eq] at hpred
      obtain ⟨hd, he⟩ := hpred
      cases heq
      subst hd
      exact ⟨e, hl, he, rfl⟩
  · rintro ⟨e, hl, het, rfl⟩
    right
    refine ⟨((splitDot m).headD "", e, lid), ⟨hl, ?_⟩, rfl⟩
    simp [het]

/-- Witness for C4 as amended: the event of Scenario B reaches the
listener registered for (Page, loadEventFired) with its params object. -/
theorem event_routing_exact_listeners_witness :
    Effect.listener 3 (.obj [("timestamp", .num 42)]) ∈
      (jsOnMessage { initialState with listeners := [("Page", "loadEventFired", 3)] }
        (.obj [("method", .str "Page.loadEventFired"),
          ("params", .obj [("timestamp", .num 42)])])).effects :=
  ((event_routing_exact_listeners
      { initialState with listeners := [("Page", "loadEventFired", 3)] }
      (.obj [("method", .str "Page.loadEventFired"),
        ("params", .obj [("timestamp", .num 42)])])
      "Page.loadEventFired" rfl rfl rfl "loadEventFired" rfl).2.2
    3 (.obj [("timestamp", .num 42)])).mpr
    ⟨"loadEventFired", List.mem_singleton.mpr rfl, rfl, rfl⟩

/-- Claim C6: when a positional argument is absent while its descriptor is
non-optional, the assertion message naming the parameter is emitted, yet
the call is still forwarded: an envelope is produced, the correlation id
counter advances by one, and the continuation is stored under the
allocated id. -/
theorem missing_required_argument_still_sent (st : InspectorState) (h : st.port = true)
    (method : String) (pre post : List Param) (p : Param) (hopt : p.optional = false)
    (args : List JsValue) (habs : argAt args pre.length = .undefined) (cb : Nat) :
    ("Missing argument: " ++ p.name) ∈
        (jsSend st method (pre ++ p :: post) args cb).warnings ∧
    (jsSend st method (pre ++ p :: post) args cb).envelope.isSome = true ∧
    (jsSend st method (pre ++ p :: post) args cb).state.messageId = st.messageId + 1 ∧
    (jsSend st method (pre ++ p :: post) args cb).state.messageCallbacks =
      (st.messageId, cb) :: st.messageCallbacks := by
  have hport : ¬ st.port = false := by rw [h]; simp
  refine ⟨?_, ?_, ?_, ?_⟩
  · simp only [jsSend, if_neg hport]
    exact warning_of_missing_required p hopt pre post args [] habs
  · simp [jsSend, if_neg hport]
  · simp [jsSend, if_neg hport]
  · simp [jsSend, if_neg hport]

/-- Witness for C6: `Page.navigate()` called while connected with no
arguments warns about `url` but is still dispatched. -/
theorem missing_required_argument_still_sent_witness :
    ("Missing argument: " ++ "url") ∈
      (jsSend connectedInit "Page.navigate" navSignature [] 0).warnings :=
  (missing_required_argument_still_sent connectedInit rfl "Page.navigate" [] []
    { name := "url", optional := false } rfl [] rfl 0).1

/-- Claim C7: when an optional trailing positional argument is absent (the
argument list ends before its index) and parameter names are pairwise
distinct, the wire form of the envelope params object — after the JSON
serialization applied by the transport, which omits properties holding
undefined — does not contain the parameter name as a key at all. -/
theorem optional_absent_omitted_from_wire (st : InspectorState) (h : st.port = true)
    (method : String) (sig : List Param) (i : Nat) (p : Param)
    (hp : sig.get? i = some p) (hopt : p.optional = true)
    (hnodup : (sig.map Param.name).Nodup)
    (args : List JsValue) (habs : args.length ≤ i) (cb : Nat) :
    ∃ fs, (jsSend st method sig args cb).envelope =
        some (.obj [("cmd", .str "sendCommand"), ("method", .str method),
          ("params", .obj fs), ("id", .num (st.messageId : Int))]) ∧
      hasKey (dropUndefFields fs) p.name = false := by
  have hport : ¬ st.port = false := by rw [h]; simp
  refine ⟨(processSignature sig args []).1, ?_, ?_⟩
  · simp [jsSend, if_neg hport]
  · have hargsi : argAt args i = .undefined := by
      have hn : args[i]? = none := List.getElem?_eq_none habs
      simp [argAt, hn]
    have hilen : i < sig.length := by
      rcases List.get?_eq_some.mp hp with ⟨hlt, _⟩
      exact hlt
    rw [processSignature_params sig args [] hnodup (fun q _ => rfl), List.nil_append]
    apply hasKey_dropUndefFields_none
    intro e he hk
    obtain ⟨j, q, hj, rfl⟩ := alignParams_mem sig args e he
    have hjlen : j < sig.length := by
      rcases List.get?_eq_some.mp hj with ⟨hlt, _⟩
      exact hlt
    have hnames_i : (sig.map Param.name).get? i = some p.name := by
      rw [List.get?_map, hp]
      rfl
    have hnames_j : (sig.map Param.name).get? j = some p.name := by
      have hk2 : q.name = p.name := hk
      rw [List.get?_map, hj]
      show some q.name = some p.name
      rw [hk2]
    have hij : i = j := by
      apply List.get?_inj _ hnodup (hnames_i.trans hnames_j.symm)
      simpa using hilen
    subst hij
    exact hargsi

/-- Witness for C7: a call with signature `[{name: url, optional: true}]`
and no arguments produces an envelope whose wire params hold no `url`
key. -/
theorem optional_absent_omitted_from_wire_witness :
    ∃ fs, (jsSend connectedInit "Page.navigate"
        [{ name := "url", optional := true }] [] 0).envelope =
        some (.obj [("cmd", .str "sendCommand"), ("method", .str "Page.navigate"),
          ("params", .obj fs), ("id", .num 1)]) ∧
      hasKey (dropUndefFields fs) "url" = false :=
  optional_absent_omitted_from_wire connectedInit rfl "Page.navigate"
    [{ name := "url", optional := true }] 0 { name := "url", optional := true }
    rfl rfl (by simp) [] (by simp) 0

/-- Claim C9: every operation of the client (send, message routing,
disconnect, reconnect, failed connect, spontaneous closure) preserves the
invariant that every id keyed in the correlation table is strictly below
the current id counter, so the table only ever holds ids the dispatcher
previously allocated. -/
theorem table_ids_below_counter (st : InspectorState) (op : Op) (h : tableInv st) :
    tableInv (stepOp st op).1 := by
  cases op with
  | send method signature args cb =>
      by_cases hp : st.port = false
      · simpa [stepOp, jsSend, hp] using h
      · intro q hq
        simp only [stepOp, jsSend, if_neg hp] at hq ⊢
        rcases List.mem_cons.mp hq with rfl | hq2
        · exact Nat.lt_succ_self _
        · exact Nat.lt_succ_of_lt (h q hq2)
  | recv resp =>
      intro q hq
      simp only [stepOp] at hq ⊢
      rw [jsOnMessage_state_messageId]
      exact h q (jsOnMessage_callbacks_sub st resp q hq)
  | disconnectOp => exact fun q hq => h q hq
  | connectOk => exact fun q hq => h q hq
  | connectFail err => exact fun q hq => h q hq
  | portClosed => exact fun q hq => h q hq

/-- Witness for C9: the invariant holds in the initial state (empty table)
and is kept by a first send while disconnected being a no-op. -/
theorem table_ids_below_counter_witness :
    tableInv (stepOp initialState
      (Op.send "Page.navigate" navSignature [JsValue.str "http://example.com"] 0)).1 :=
  table_ids_below_counter initialState
    (Op.send "Page.navigate" navSignature [JsValue.str "http://example.com"] 0)
    (fun q hq => absurd hq (by simp [initialState]))

/-- Claim C10 as amended: for every inbound message with falsy `error`
field whose `result` field is an object (a truthy primitive result makes
the normalizing write throw instead) with absent nested `result`, the
router rewrites the message so that `result.result` is
`{type: "undefined"}` before the correlation lookup, without throwing, and
it does so whether or not a pending call exists for the id — the state is
universally quantified, including an empty table. -/
theorem normalization_before_lookup (st : InspectorState) (msg : JsValue)
    (fs : List (String × JsValue))
    (herr : truthy (getField msg "error") = false)
    (hres : getField msg "result" = .obj fs)
    (hnested : lookupField fs "result" = .undefined) :
    (jsOnMessage st msg).threw = false ∧
    (jsOnMessage st msg).response =
      setField msg "result"
        (setField (.obj fs) "result" (.obj [("type", .str "undefined")])) := by
  have hn : normalizeResult fs =
      setField (.obj fs) "result" (.obj [("type", .str "undefined")]) := by
    simp [normalizeResult, hnested, truthy]
  simp only [jsOnMessage, herr, hres, truthy_obj, Bool.false_eq_true, if_false, if_true, hn]
  rcases hk : msgIdKey (getField msg "id") with _ | k
  · simp [hk]
  · rcases hcb : List.lookup k st.messageCallbacks with _ | cb <;> simp [hk, hcb]

/-- Witness for C10 as amended: a response with an unknown id (7) against
the empty table still gets its nested result normalized. -/
theorem normalization_before_lookup_witness :
    (jsOnMessage initialState
      (.obj [("id", .num 7), ("result", .obj [("x", .num 1)])])).response =
      setField (.obj [("id", .num 7), ("result", .obj [("x", .num 1)])]) "result"
        (setField (.obj [("x", .num 1)]) "result" (.obj [("type", .str "undefined")])) :=
  (normalization_before_lookup initialState
    (.obj [("id", .num 7), ("result", .obj [("x", .num 1)])]) [("x", .num 1)] rfl rfl rfl).2

end ChromeInspector
